import Mathlib

/-!
Verification of the orchestration pipeline of the 4sale automotive scraping
repository (`normal_code_main.py`, `SavingOnDrive.py`).

The Python source is shallowly embedded: records are association lists of
string fields, the external collaborators (detail extractor, Google Drive
service, filesystem, clock) are oracles passed as explicit function
arguments, and every `try/except` of the source becomes an explicit
`Except`/`Option` value.  Loops with a mutable counter (`while attempt <
self.upload_retries`) are embedded with a fuel argument equal to the number
of remaining iterations, so all definitions are structural and evaluate by
`decide`/`rfl`.
-/

/-! ## Records and the publish-date filter (`scrape_automotive`, lines 49-64)

A scraped listing is an open field map.  `pyGet` is Python's `dict.get`
with a default, `pySplitWS` is Python's `str.split()` (split on whitespace
runs, dropping empty parts).
-/

/-- A scraped record: an open mapping of field name to string value. -/
abbrev Rec := List (String × String)

/-- Python `r.get(k, dflt)` on an association list. -/
def pyGet (r : Rec) (k dflt : String) : String :=
  match r.find? (fun p => p.1 == k) with
  | some p => p.2
  | none => dflt

/-- Accumulator pass for `pySplitWS`: `cur` is the current token reversed. -/
def splitWSAux : List Char → List Char → List String
  | cur, [] => if cur.isEmpty then [] else [String.mk cur.reverse]
  | cur, c :: cs =>
    if c.isWhitespace then
      if cur.isEmpty then splitWSAux [] cs
      else String.mk cur.reverse :: splitWSAux [] cs
    else splitWSAux (c :: cur) cs

/-- Python `s.split()` with no arguments: whitespace-run tokens, empties dropped. -/
def pySplitWS (s : String) : List String := splitWSAux [] s.data

/-- Embedding of the per-page record loop of `scrape_automotive` (lines 58-60):
`for car in cars: if car.get("date_published", "").split()[0] == yesterday:
car_data.append(car)`.  Returns the records appended and whether the loop
raised (`IndexError` from `[0]` on an empty token list); records appended
before the raising record are kept, records after it are never examined. -/
def pageFilter (target : String) : List Rec → List Rec × Bool
  | [] => ([], false)
  | car :: rest =>
    match pySplitWS (pyGet car "date_published" "") with
    | [] => ([], true)
    | tok :: _ =>
      let r := pageFilter target rest
      (if tok = target then car :: r.1 else r.1, r.2)

/-- The filter the spec describes: keep exactly the records whose derived
publish date (first whitespace-separated token of the publish-timestamp
field) equals the target; a record with no such token never matches.
Stated from the spec's words, to be compared with `pageFilter`. -/
def specDateFilter (target : String) (cars : List Rec) : List Rec :=
  cars.filter (fun car =>
    match pySplitWS (pyGet car "date_published" "") with
    | [] => false
    | tok :: _ => tok == target)

/-- A record with no publish-timestamp field at all. -/
def badRec : Rec := []

/-- A record published at the target date. -/
def goodRec : Rec := [("date_published", "2024-01-02 10:00:00")]

/-! ## The per-file upload retry loop (`upload_files_with_retry`, lines 85-106)

The body `self.drive_saver.save_files([file])` is abstracted as an oracle
giving, for each attempt index, how that attempt ends: the four `except`
shapes of the source are success, `HttpError` with status 404, any other
`HttpError`, and any non-`HttpError` exception.
-/

/-- How one `save_files` call inside the retry loop ends. -/
inductive AttemptRes
  | success
  | notFound
  | httpTransient
  | otherError
deriving DecidableEq

/-- Terminal result of the retry loop for one file. -/
inductive Outcome
  | Uploaded
  | SkippedPermanent
  | Exhausted
  | AbortedUnexpected
deriving DecidableEq

/-- Embedding of `while attempt < self.upload_retries` with fuel
`retries - attempt`: on 404 break with `SkippedPermanent`, on any other
`HttpError` increment `attempt`, sleep and retry, on any other exception
break with no retry; the `while/else` branch (`Max retries reached`) is
`Exhausted`.  Returns the outcome and the number of attempts made. -/
def uploadGo (save : Nat → AttemptRes) : Nat → Nat → Outcome × Nat
  | 0, attempt => (.Exhausted, attempt)
  | fuel + 1, attempt =>
    match save attempt with
    | .success => (.Uploaded, attempt + 1)
    | .notFound => (.SkippedPermanent, attempt + 1)
    | .otherError => (.AbortedUnexpected, attempt + 1)
    | .httpTransient => uploadGo save fuel (attempt + 1)

/-- The retry loop for one file, started with `attempt = 0`. -/
def uploadFileRetry (save : Nat → AttemptRes) (retries : Nat) : Outcome × Nat :=
  uploadGo save retries 0

/-! ## The concurrency gate (`asyncio.Semaphore`, lines 51 and 129)

`scrape_all_automotives` creates one `asyncio.Semaphore(self.max_concurrent_links)`
shared by every harvester task of the run; `scrape_automotive` wraps its whole
page loop in `async with semaphore`, so each task acquires exactly one slot for
its lifetime and releases it on every exit path.  The cooperative scheduler is
embedded as a transition relation on the semaphore counter plus the phase of
each task (not yet admitted / holding a slot / finished); any interleaving the
event loop can produce is a path of this relation. -/

/-- Lifecycle phase of one harvester task with respect to the semaphore. -/
inductive TPhase
  | waiting
  | active
  | done
deriving DecidableEq

/-- Scheduler state: remaining semaphore slots and the phase of each task. -/
structure SemState where
  count : Nat
  tasks : List TPhase
deriving DecidableEq

/-- Number of tasks currently holding a slot (past admission, not completed). -/
def countActive : List TPhase → Nat
  | [] => 0
  | t :: ts => (if t = TPhase.active then 1 else 0) + countActive ts

/-- One scheduler transition: `acquire` admits a waiting task when a slot is
free (`async with semaphore` entry), `release` completes an active task
(`async with` exit, taken on every path out of the page loop). -/
inductive SemStep : SemState → SemState → Prop
  | acquire (c : Nat) (ts : List TPhase) (i : Nat)
      (hget : ts.get? i = some TPhase.waiting) :
      SemStep ⟨c + 1, ts⟩ ⟨c, ts.set i TPhase.active⟩
  | release (c : Nat) (ts : List TPhase) (i : Nat)
      (hget : ts.get? i = some TPhase.active) :
      SemStep ⟨c, ts⟩ ⟨c + 1, ts.set i TPhase.done⟩

/-- States reachable from the start of a run: semaphore initialised to the
configured bound, `n` tasks (any category count and chunk size) not yet
admitted. -/
inductive SemReach (bound n : Nat) : SemState → Prop
  | init : SemReach bound n ⟨bound, List.replicate n TPhase.waiting⟩
  | step {s s' : SemState} : SemReach bound n s → SemStep s s' → SemReach bound n s'

/-! ## Chunk partitioning (`scrape_all_automotives`, lines 124-127)

`[list(self.automotives_data.items())[i:i + self.chunk_size] for i in
range(0, len(self.automotives_data), self.chunk_size)]` over the
insertion-ordered category mapping.  The fuel argument equals the list
length; each step consumes at least one element whenever the size is
positive, so the fuel never runs out. -/

/-- One category of the run configuration: name and ordered
(URL template, page count) list. -/
abbrev Category := String × List (String × Nat)

/-- Fuel-indexed chunking: slices `l[0:size], l[size:2*size], ...`. -/
def pyChunksGo {α : Type} (size : Nat) : Nat → List α → List (List α)
  | _, [] => []
  | 0, _ :: _ => []
  | fuel + 1, x :: xs => ((x :: xs).take size) :: pyChunksGo size fuel ((x :: xs).drop size)

/-- Embedding of the chunking list comprehension. -/
def pyChunks {α : Type} (size : Nat) (l : List α) : List (List α) :=
  pyChunksGo size l.length l

/-! ## The Drive client (`SavingOnDrive.py`) composed with the retry loop

The remote service is an oracle: folder resolution per root and upload per
(root, file) either succeed or fail with one of the three exception classes
the Python distinguishes (`HttpError` 404, other `HttpError`, anything
else).  `get_or_create_folder` turns a 404 into `None` and re-raises
everything else; `upload_file` re-raises everything; `save_files` walks the
configured roots, skipping a root whose resolution returned `None` and
re-raising the first exception, after logging, to its caller.  The trace of
`resolveCall`/`uploadCall` events records every remote call made.  For the
composed model the oracles also take the retry-attempt index, so a run can
behave differently on different attempts. -/

/-- Exception class, as distinguished by the `except` clauses of the source. -/
inductive PyErr
  | http404
  | httpOther
  | other
deriving DecidableEq

/-- Result of one remote-service call: a folder id, or a raised exception. -/
inductive SvcRes
  | ok (folderId : Nat)
  | err (e : PyErr)
deriving DecidableEq

/-- Embedding of `get_or_create_folder` (lines 39-71): an `HttpError` with
status 404 is caught and becomes `None` (the root is reported missing); any
other exception is re-raised. -/
def get_or_create_folder (r : SvcRes) : Except PyErr (Option Nat) :=
  match r with
  | .ok fid => .ok (some fid)
  | .err .http404 => .ok none
  | .err e => .error e

/-- One remote call made by `save_files`: a folder lookup/creation under a
root, or a file upload into a root's dated folder. -/
inductive DEv
  | resolveCall (root : Nat)
  | uploadCall (root : Nat) (file : String)
deriving DecidableEq

/-- The inner `for file_name in files` loop of `save_files` (lines 108-109):
each `upload_file` call is recorded; the first raised exception aborts the
loop and propagates. -/
def uploadFilesInRoot (upload : Nat → String → Option PyErr) (root : Nat) :
    List String → List DEv × Option PyErr
  | [] => ([], none)
  | f :: fs =>
    match upload root f with
    | none =>
      let r := uploadFilesInRoot upload root fs
      (DEv.uploadCall root f :: r.1, r.2)
    | some e => ([DEv.uploadCall root f], some e)

/-- The `for parent_folder_id in self.parent_folder_ids` loop of
`save_files` (lines 101-109): resolve the dated folder under each root in
order; a `None` resolution skips that root (`continue`); a raised exception
anywhere aborts the whole call and is re-raised by the outer `except`. -/
def saveFilesGo (resolve : Nat → SvcRes) (upload : Nat → String → Option PyErr)
    (files : List String) : List Nat → List DEv × Option PyErr
  | [] => ([], none)
  | root :: roots =>
    match get_or_create_folder (resolve root) with
    | .error e => ([DEv.resolveCall root], some e)
    | .ok none =>
      let r := saveFilesGo resolve upload files roots
      (DEv.resolveCall root :: r.1, r.2)
    | .ok (some _) =>
      match uploadFilesInRoot upload root files with
      | (evs, some e) => (DEv.resolveCall root :: evs, some e)
      | (evs, none) =>
        let r := saveFilesGo resolve upload files roots
        (DEv.resolveCall root :: evs ++ r.1, r.2)

/-- Embedding of `save_files` (lines 96-114): the trace of remote calls made
and the exception it re-raises, if any. -/
def save_files (resolve : Nat → SvcRes) (upload : Nat → String → Option PyErr)
    (roots : List Nat) (files : List String) : List DEv × Option PyErr :=
  saveFilesGo resolve upload files roots

/-- Per-file terminal result of `upload_files_with_retry`. -/
inductive UpOutcome
  | uploadedOk
  | skippedPermanent
  | exhausted
  | abortedUnexpected
deriving DecidableEq

/-- The retry loop of `upload_files_with_retry` for one file, composed with
the real `save_files` (which it calls as `save_files([file])`); the oracles
take the attempt index first.  Fuel is `retries - attempt` as in `uploadGo`. -/
def retryFileGo (roots : List Nat) (resolve : Nat → Nat → SvcRes)
    (upload : Nat → Nat → String → Option PyErr) (f : String) :
    Nat → Nat → List DEv × UpOutcome
  | 0, _ => ([], .exhausted)
  | fuel + 1, attempt =>
    let r := save_files (resolve attempt) (upload attempt) roots [f]
    match r.2 with
    | none => (r.1, .uploadedOk)
    | some .http404 => (r.1, .skippedPermanent)
    | some .other => (r.1, .abortedUnexpected)
    | some .httpOther =>
      let rest := retryFileGo roots resolve upload f fuel (attempt + 1)
      (r.1 ++ rest.1, rest.2)

/-- Embedding of `upload_files_with_retry` (lines 85-106) over the Drive
client: for each file in order, run the retry loop from attempt 0; collect
the full remote-call trace and the per-file outcomes. -/
def upload_files_with_retry (roots : List Nat) (resolve : Nat → Nat → SvcRes)
    (upload : Nat → Nat → String → Option PyErr) (retries : Nat) :
    List String → List DEv × List (String × UpOutcome)
  | [] => ([], [])
  | f :: fs =>
    let r := retryFileGo roots resolve upload f retries 0
    let rest := upload_files_with_retry roots resolve upload retries fs
    (r.1 ++ rest.1, (f, r.2) :: rest.2)

/-- Occurrences of one remote-call event in a trace. -/
def countD : List DEv → DEv → Nat
  | [], _ => 0
  | e :: es, x => (if e = x then 1 else 0) + countD es x

/-! ## The exporter (`save_to_excel`, lines 69-82)

`pd.DataFrame(car_data).to_excel(f"{automotive_name}.xlsx")`: the tabular
encoding itself is external, modelled by the documented `DataFrame`
construction from a list of mappings — columns are the union of the field
names in first-appearance order, rows keep input order.  An I/O or encoding
failure (the oracle `ioOk = false`) is caught and surfaces as `None`. -/

/-- The tabular artifact: file path, column set, rows. -/
structure Exported where
  path : String
  columns : List String
  rows : List Rec
deriving DecidableEq

/-- Append the keys of one record to the accumulated column list, keeping
first-appearance order and skipping keys already present. -/
def addKeys (acc : List String) : List String → List String
  | [] => acc
  | k :: ks => addKeys (if k ∈ acc then acc else acc ++ [k]) ks

/-- Columns of `pd.DataFrame(recs)`: union of observed field names in
first-appearance order. -/
def dfColumns (recs : List Rec) : List String :=
  recs.foldl (fun acc r => addKeys acc (r.map Prod.fst)) []

/-- Embedding of `save_to_excel`: `None` for an empty record list, `None`
(after logging) when writing fails, otherwise the artifact named after the
category. -/
def save_to_excel (name : String) (recs : List Rec) (ioOk : Bool) : Option Exported :=
  if recs.isEmpty then none
  else if ioOk then some ⟨name ++ ".xlsx", dfColumns recs, recs⟩
  else none

/-! ## The orchestrator (`scrape_all_automotives`, lines 109-164)

External behaviour is an oracle record: whether Drive setup/authentication
succeeds, each category's harvest result (a task-level exception or its
record list), whether each category's export write succeeds, how each
upload attempt of each file ends (feeding the `uploadFileRetry` loop with
the code's `upload_retries = 3`), and whether each local deletion succeeds.
The run is embedded as the list of observable events it produces. -/

/-- Observable events of one run. -/
inductive Ev
  | taskError (name : String)
  | noData (name : String)
  | exported (name : String)
  | exportFailed (name : String)
  | uploadDone (file : String) (o : Outcome)
  | deleted (file : String)
  | deleteFailed (file : String)
  | chunkStart (i : Nat)
  | chunkDone (i : Nat)
  | authFailed
deriving DecidableEq

/-- Oracles for the environment of one run. -/
structure OrcOracles where
  authOk : Bool
  harvest : String → Except Unit (List Rec)
  exportOk : String → Bool
  uploadB : String → Nat → AttemptRes
  deleteOk : String → Bool

/-- The files appended to `pending_uploads` for one chunk (lines 140-149):
categories whose task raised are skipped (logged), empty results produce no
file, and a failed export produces no file. -/
def pendingOf (O : OrcOracles) (chunk : List Category) : List String :=
  chunk.filterMap (fun c =>
    match O.harvest c.1 with
    | .error _ => none
    | .ok recs =>
      if recs.isEmpty then none
      else (save_to_excel c.1 recs (O.exportOk c.1)).map Exported.path)

/-- The per-category event of the await/export stage. -/
def categoryEv (O : OrcOracles) (c : Category) : Ev :=
  match O.harvest c.1 with
  | .error _ => .taskError c.1
  | .ok recs =>
    if recs.isEmpty then .noData c.1
    else
      match save_to_excel c.1 recs (O.exportOk c.1) with
      | some _ => .exported c.1
      | none => .exportFailed c.1

/-- The deletion attempt for one file (lines 154-159): `os.remove` succeeds
or its exception is caught and logged. -/
def delEv (O : OrcOracles) (f : String) : Ev :=
  if O.deleteOk f then .deleted f else .deleteFailed f

/-- Events of one chunk: per-category results, then (only when
`pending_uploads` is non-empty, line 152) the upload batch followed by the
unconditional deletion of every pending file. -/
def chunkEvents (O : OrcOracles) (chunk : List Category) : List Ev :=
  let pend := pendingOf O chunk
  chunk.map (categoryEv O)
    ++ (if pend.isEmpty then []
        else pend.map (fun f => Ev.uploadDone f (uploadFileRetry (O.uploadB f) 3).1)
          ++ pend.map (delEv O))

/-- The chunk loop, `chunk_index` starting at 1 as in
`enumerate(automotive_chunks, 1)`. -/
def runChunks (O : OrcOracles) : Nat → List (List Category) → List Ev
  | _, [] => []
  | i, ch :: rest =>
    (Ev.chunkStart i :: chunkEvents O ch ++ [Ev.chunkDone i]) ++ runChunks O (i + 1) rest

/-- Embedding of `scrape_all_automotives`: a Drive setup/authentication
failure logs and returns before any chunk; otherwise every chunk of the
size-2 partition is processed to completion. -/
def scrape_all_automotives (O : OrcOracles) (data : List Category) : List Ev :=
  if O.authOk then runChunks O 1 (pyChunks 2 data) else [Ev.authFailed]

/-- Environment for the witnesses: authentication succeeds, one category
harvests one matching record, export succeeds, uploads succeed, local
deletion fails. -/
def oWit : OrcOracles :=
  ⟨true, fun _ => Except.ok [goodRec], fun _ => true,
   fun _ _ => AttemptRes.success, fun _ => false⟩

/-- Environment whose Drive authentication fails. -/
def oBad : OrcOracles :=
  ⟨false, fun _ => Except.error (), fun _ => false,
   fun _ _ => AttemptRes.otherError, fun _ => false⟩

/-- One-category run configuration for the witnesses. -/
def dataWit : List Category := [("cat1", [("u", 1)])]

/-! ### Theorems for the record filter -/

/-- C1: on a page whose record list contains a record with an absent (or
all-whitespace) publish-timestamp field followed by a record that matches
the target date, the code appends nothing and raises out of the record loop
(the page-level `except` then swallows the error), whereas the specified
filter keeps the matching record: the defensive `.get("date_published", "")`
default is defeated by the `[0]` index, so a malformed record silently drops
every later record of its page. -/
theorem C1_missing_field_aborts_page :
    pageFilter "2024-01-02" [badRec, goodRec] = ([], true) ∧
    specDateFilter "2024-01-02" [badRec, goodRec] = [goodRec] ∧
    pageFilter "2024-01-02" [badRec, goodRec] ≠
      (specDateFilter "2024-01-02" [badRec, goodRec], false) := by
  refine ⟨rfl, rfl, ?_⟩
  decide

/-! ### Theorems for the retry loop -/

theorem uploadGo_transient (save : Nat → AttemptRes)
    (h : ∀ k, save k = AttemptRes.httpTransient) :
    ∀ fuel attempt, uploadGo save fuel attempt = (Outcome.Exhausted, fuel + attempt) := by
  intro fuel
  induction fuel with
  | zero => intro attempt; simp [uploadGo]
  | succ m ih =>
    intro attempt
    simp only [uploadGo, h]
    rw [ih]
    simp only [Prod.mk.injEq, true_and]
    omega

/-- C2 (amended): a first-attempt 404 gives exactly one attempt and
`SkippedPermanent`; a persistently transient (`HttpError`, non-404) failure
gives exactly `retries` attempts and `Exhausted`; but a non-`HttpError`
failure on the first attempt breaks the loop after one attempt with no
retry and no `Exhausted` record. -/
theorem C2_retry_classification (retries : Nat) (save : Nat → AttemptRes) :
    (0 < retries → save 0 = AttemptRes.notFound →
      uploadFileRetry save retries = (Outcome.SkippedPermanent, 1)) ∧
    ((∀ k, save k = AttemptRes.httpTransient) →
      uploadFileRetry save retries = (Outcome.Exhausted, retries)) ∧
    (0 < retries → save 0 = AttemptRes.otherError →
      uploadFileRetry save retries = (Outcome.AbortedUnexpected, 1)) := by
  refine ⟨?_, ?_, ?_⟩
  · intro hpos h0
    cases retries with
    | zero => omega
    | succ m => simp [uploadFileRetry, uploadGo, h0]
  · intro h
    rw [uploadFileRetry, uploadGo_transient save h retries 0]
    simp
  · intro hpos h0
    cases retries with
    | zero => omega
    | succ m => simp [uploadFileRetry, uploadGo, h0]

/-- Witness for C2: with the code's `upload_retries = 3` and a persistently
transient destination, exactly 3 attempts are made and the loop ends
`Exhausted`. -/
theorem C2_retry_classification_witness :
    uploadFileRetry (fun _ => AttemptRes.httpTransient) 3 = (Outcome.Exhausted, 3) :=
  (C2_retry_classification 3 (fun _ => AttemptRes.httpTransient)).2.1 (fun _ => rfl)

/-- Counterexample for C2 as stated: a destination that persistently fails
with a non-`HttpError` exception is abandoned after a single attempt — it is
not classified transient, is never retried, and the outcome is not
`Exhausted` after `uploadRetries = 3` attempts. -/
theorem C2_counterexample :
    uploadFileRetry (fun _ => AttemptRes.otherError) 3 = (Outcome.AbortedUnexpected, 1) ∧
    uploadFileRetry (fun _ => AttemptRes.otherError) 3 ≠ (Outcome.Exhausted, 3) := by
  decide

/-! ### Theorems for the concurrency gate -/

theorem countActive_replicate (n : Nat) :
    countActive (List.replicate n TPhase.waiting) = 0 := by
  induction n with
  | zero => rfl
  | succ m ih => simp [List.replicate, countActive, ih]

theorem countActive_set (l : List TPhase) :
    ∀ (i : Nat) (w v : TPhase), l.get? i = some w →
      countActive (l.set i v) + (if w = TPhase.active then 1 else 0)
        = countActive l + (if v = TPhase.active then 1 else 0) := by
  induction l with
  | nil => intro i w v h; simp at h
  | cons t ts ih =>
    intro i w v h
    cases i with
    | zero =>
      simp only [List.get?] at h
      injection h with h
      subst h
      simp only [List.set, countActive]
      omega
    | succ j =>
      simp only [List.get?] at h
      have h2 := ih j w v h
      simp only [List.set, countActive]
      omega

theorem countActive_set_active (l : List TPhase) (i : Nat)
    (h : l.get? i = some TPhase.waiting) :
    countActive (l.set i TPhase.active) = countActive l + 1 := by
  have h2 := countActive_set l i TPhase.waiting TPhase.active h
  simpa using h2

theorem countActive_set_done (l : List TPhase) (i : Nat)
    (h : l.get? i = some TPhase.active) :
    countActive (l.set i TPhase.done) + 1 = countActive l := by
  have h2 := countActive_set l i TPhase.active TPhase.done h
  simpa using h2

theorem semReach_inv (bound n : Nat) (s : SemState) (h : SemReach bound n s) :
    countActive s.tasks + s.count = bound := by
  induction h with
  | init => simp [countActive_replicate]
  | step hs hstep ih =>
    cases hstep with
    | acquire c ts i hget =>
      simp only at ih ⊢
      rw [countActive_set_active ts i hget]
      omega
    | release c ts i hget =>
      simp only at ih ⊢
      have h2 := countActive_set_done ts i hget
      omega

/-- C5: in every state reachable by any interleaving of admissions and
completions, for any task count `n` (hence any category count and chunk
size) and any configured bound, the number of harvester tasks concurrently
past semaphore admission and not yet completed never exceeds the bound. -/
theorem C5_concurrency_bound (bound n : Nat) (s : SemState) (h : SemReach bound n s) :
    countActive s.tasks ≤ bound := by
  have h2 := semReach_inv bound n s h
  omega

/-- Witness for C5: with bound 2 and five tasks, the state after one
admission step is reachable and holds at most 2 active tasks. -/
theorem C5_concurrency_bound_witness :
    countActive ((List.replicate 5 TPhase.waiting).set 0 TPhase.active) ≤ 2 :=
  C5_concurrency_bound 2 5
    ⟨1, (List.replicate 5 TPhase.waiting).set 0 TPhase.active⟩
    (SemReach.step SemReach.init
      (SemStep.acquire 1 (List.replicate 5 TPhase.waiting) 0 (by decide)))

/-! ### Theorems for chunk partitioning -/

theorem pyChunksGo_nil {α : Type} (size fuel : Nat) :
    pyChunksGo size fuel ([] : List α) = [] := by
  cases fuel <;> rfl

theorem pyChunksGo_join {α : Type} (size : Nat) (hs : 0 < size) :
    ∀ (fuel : Nat) (l : List α), l.length ≤ fuel →
      (pyChunksGo size fuel l).flatten = l := by
  intro fuel
  induction fuel with
  | zero =>
    intro l hl
    have hnil : l = [] := List.length_eq_zero.mp (Nat.le_zero.mp hl)
    subst hnil
    rfl
  | succ m ih =>
    intro l hl
    cases l with
    | nil => rfl
    | cons x xs =>
      simp only [pyChunksGo, List.flatten_cons]
      rw [ih ((x :: xs).drop size)]
      · exact List.take_append_drop size (x :: xs)
      · simp only [List.length_drop, List.length_cons] at hl ⊢
        omega

theorem pyChunksGo_dropLast {α : Type} (size : Nat) (hs : 0 < size) :
    ∀ (fuel : Nat) (l : List α), l.length ≤ fuel →
      ∀ c ∈ (pyChunksGo size fuel l).dropLast, c.length = size := by
  intro fuel
  induction fuel with
  | zero =>
    intro l hl c hc
    have hnil : l = [] := List.length_eq_zero.mp (Nat.le_zero.mp hl)
    subst hnil
    simp [pyChunksGo] at hc
  | succ m ih =>
    intro l hl c hc
    cases l with
    | nil => simp [pyChunksGo] at hc
    | cons x xs =>
      simp only [pyChunksGo] at hc
      cases hrest : pyChunksGo size m ((x :: xs).drop size) with
      | nil => rw [hrest] at hc; simp at hc
      | cons r rs =>
        rw [hrest] at hc
        simp only [List.dropLast, List.mem_cons] at hc
        rcases hc with hc | hc
        · subst hc
          have hdrop : (x :: xs).drop size ≠ [] := by
            intro hd
            rw [hd, pyChunksGo_nil] at hrest
            exact List.cons_ne_nil r rs hrest.symm
          have hlen : size < (x :: xs).length := by
            by_contra hle
            push_neg at hle
            exact hdrop (List.drop_eq_nil_of_le hle)
          simp only [List.length_take]
          omega
        · have hle : ((x :: xs).drop size).length ≤ m := by
            simp only [List.length_drop, List.length_cons] at hl ⊢
            omega
          have := ih ((x :: xs).drop size) hle c
          rw [hrest] at this
          exact this hc

theorem pyChunksGo_mem {α : Type} (size : Nat) (hs : 0 < size) :
    ∀ (fuel : Nat) (l : List α), l.length ≤ fuel →
      ∀ c ∈ pyChunksGo size fuel l, c ≠ [] ∧ c.length ≤ size := by
  intro fuel
  induction fuel with
  | zero =>
    intro l hl c hc
    have hnil : l = [] := List.length_eq_zero.mp (Nat.le_zero.mp hl)
    subst hnil
    simp [pyChunksGo] at hc
  | succ m ih =>
    intro l hl c hc
    cases l with
    | nil => simp [pyChunksGo] at hc
    | cons x xs =>
      simp only [pyChunksGo, List.mem_cons] at hc
      rcases hc with hc | hc
      · subst hc
        constructor
        · have : ((x :: xs).take size).length ≠ 0 := by
            simp only [List.length_take, List.length_cons]
            omega
          intro hn
          rw [hn] at this
          exact this rfl
        · simp only [List.length_take]
          omega
      · have hle : ((x :: xs).drop size).length ≤ m := by
          simp only [List.length_drop, List.length_cons] at hl ⊢
          omega
        exact ih ((x :: xs).drop size) hle c hc

/-- C6: for every category mapping (in insertion order) and every positive
chunk size, the chunks are consecutive slices whose concatenation in chunk
order then within-chunk order reproduces the original sequence exactly;
every chunk but possibly the last has exactly the configured size, and every
chunk is non-empty with at most the configured size. -/
theorem C6_chunk_partition (data : List Category) (size : Nat) (hs : 0 < size) :
    (pyChunks size data).flatten = data ∧
    (∀ c ∈ (pyChunks size data).dropLast, c.length = size) ∧
    (∀ c ∈ pyChunks size data, c ≠ [] ∧ c.length ≤ size) :=
  ⟨pyChunksGo_join size hs data.length data (Nat.le_refl _),
   pyChunksGo_dropLast size hs data.length data (Nat.le_refl _),
   pyChunksGo_mem size hs data.length data (Nat.le_refl _)⟩

/-- Witness for C6: three categories with the code's chunk size 2 are
partitioned into `[[c1, c2], [c3]]`, whose concatenation restores the
original mapping. -/
theorem C6_chunk_partition_witness :
    (pyChunks 2 ([("c1", [("u", 1)]), ("c2", []), ("c3", [])] : List Category)).flatten
      = [("c1", [("u", 1)]), ("c2", []), ("c3", [])] :=
  (C6_chunk_partition [("c1", [("u", 1)]), ("c2", []), ("c3", [])] 2 (by decide)).1

/-! ### Theorems for the Drive client and the composed retry loop -/

theorem uploadFilesInRoot_allok (upload : Nat → String → Option PyErr) (root : Nat)
    (h : ∀ f, upload root f = none) :
    ∀ fs, uploadFilesInRoot upload root fs = (fs.map (DEv.uploadCall root), none) := by
  intro fs
  induction fs with
  | nil => rfl
  | cons f fs ih => simp [uploadFilesInRoot, h, ih]

theorem save_files_allok (resolve : Nat → SvcRes) (upload : Nat → String → Option PyErr)
    (hres : ∀ r, ∃ fid, resolve r = SvcRes.ok fid)
    (hupl : ∀ r f, upload r f = none) (files : List String) :
    ∀ roots, save_files resolve upload roots files =
      ((roots.map (fun r => DEv.resolveCall r :: files.map (DEv.uploadCall r))).flatten,
       none) := by
  intro roots
  induction roots with
  | nil => rfl
  | cons r rs ih =>
    obtain ⟨fid, hfid⟩ := hres r
    simp only [save_files, saveFilesGo] at ih ⊢
    rw [hfid, uploadFilesInRoot_allok upload r (hupl r) files, ih]
    simp [get_or_create_folder]

theorem save_files_all404 (resolve : Nat → SvcRes) (upload : Nat → String → Option PyErr)
    (hres : ∀ r, resolve r = SvcRes.err PyErr.http404) (files : List String) :
    ∀ roots, save_files resolve upload roots files = (roots.map DEv.resolveCall, none) := by
  intro roots
  induction roots with
  | nil => rfl
  | cons r rs ih =>
    simp only [save_files, saveFilesGo] at ih ⊢
    rw [hres r, ih]
    simp [get_or_create_folder]

theorem retryFileGo_first_success (roots : List Nat) (resolve : Nat → Nat → SvcRes)
    (upload : Nat → Nat → String → Option PyErr) (f : String) (fuel attempt : Nat)
    (h : (save_files (resolve attempt) (upload attempt) roots [f]).2 = none) :
    retryFileGo roots resolve upload f (fuel + 1) attempt =
      ((save_files (resolve attempt) (upload attempt) roots [f]).1,
       UpOutcome.uploadedOk) := by
  simp only [retryFileGo]
  rw [h]

/-- C3 (corrected): a full run of the per-file retry loop against a healthy
second root never attempts an upload to it, because the first root's
transient upload failure makes `save_files` re-raise and abort the whole
multi-root walk on every attempt; after `uploadRetries = 3` attempts the
file is recorded exhausted with root 2 never tried. -/
theorem C3_counterexample :
    DEv.uploadCall 2 "a" ∉
      (upload_files_with_retry [1, 2] (fun _ _ => SvcRes.ok 9)
        (fun _ r _ => if r = 1 then some PyErr.httpOther else none) 3 ["a"]).1 ∧
    (upload_files_with_retry [1, 2] (fun _ _ => SvcRes.ok 9)
        (fun _ r _ => if r = 1 then some PyErr.httpOther else none) 3 ["a"]).2
      = [("a", UpOutcome.exhausted)] := by
  decide

/-- C3 (amended): a permanent destination-not-found failure of folder
resolution for one root only skips that root — the walk continues with the
other roots unchanged; and when no call fails, every artifact is attempted
against every configured root.  (Any raised failure, by contrast, aborts
the remaining roots of that `save_files` invocation.) -/
theorem C3_root_isolation :
    (∀ (resolve : Nat → SvcRes) (upload : Nat → String → Option PyErr)
        (files : List String) (r1 : Nat) (roots : List Nat),
        resolve r1 = SvcRes.err PyErr.http404 →
        save_files resolve upload (r1 :: roots) files =
          (DEv.resolveCall r1 :: (save_files resolve upload roots files).1,
           (save_files resolve upload roots files).2)) ∧
    (∀ (resolve : Nat → SvcRes) (upload : Nat → String → Option PyErr)
        (roots : List Nat) (files : List String),
        (∀ r, ∃ fid, resolve r = SvcRes.ok fid) →
        (∀ r f, upload r f = none) →
        ∀ r ∈ roots, ∀ f ∈ files,
          DEv.uploadCall r f ∈ (save_files resolve upload roots files).1) := by
  constructor
  · intro resolve upload files r1 roots h
    simp only [save_files, saveFilesGo]
    rw [h]
    rfl
  · intro resolve upload roots files hres hupl r hr f hf
    rw [save_files_allok resolve upload hres hupl files roots]
    simp only [List.mem_flatten]
    refine ⟨DEv.resolveCall r :: files.map (DEv.uploadCall r), ?_, ?_⟩
    · exact List.mem_map_of_mem _ hr
    · exact List.mem_cons_of_mem _ (List.mem_map_of_mem _ hf)

/-- Witness for C3 (amended): with both roots resolving and uploads clean,
the second root receives the file. -/
theorem C3_root_isolation_witness :
    DEv.uploadCall 2 "a" ∈
      (save_files (fun _ => SvcRes.ok 5) (fun _ _ => none) [1, 2] ["a"]).1 :=
  C3_root_isolation.2 (fun _ => SvcRes.ok 5) (fun _ _ => none) [1, 2] ["a"]
    (fun _ => ⟨5, rfl⟩) (fun _ _ => rfl) 2 (by decide) "a" (by decide)

/-- C4 (corrected): in a clean run uploading two files to one root, the
dated folder under that root is looked up twice — once per
`save_files([file])` call — refuting "looked up or created at most once per
run". -/
theorem C4_counterexample :
    countD (upload_files_with_retry [5] (fun _ _ => SvcRes.ok 9) (fun _ _ _ => none) 3
        ["a", "b"]).1 (DEv.resolveCall 5) = 2 ∧
    ¬ countD (upload_files_with_retry [5] (fun _ _ => SvcRes.ok 9) (fun _ _ _ => none) 3
        ["a", "b"]).1 (DEv.resolveCall 5) ≤ 1 := by
  decide

/-- C4 (amended): nothing is cached per (root, date): in a clean run the
folder is re-resolved for every root on every file's upload, and when every
root's resolution keeps failing with destination-not-found, the root is
still re-resolved for every file — each file's `save_files` call skips all
roots, uploads nothing, and reports plain success, so the retry loop never
records any skip. -/
theorem C4_resolution_per_attempt :
    (∀ (roots : List Nat) (resolve : Nat → Nat → SvcRes)
        (upload : Nat → Nat → String → Option PyErr) (retries : Nat) (files : List String),
        (∀ a r, ∃ fid, resolve a r = SvcRes.ok fid) →
        (∀ a r f, upload a r f = none) →
        0 < retries →
        upload_files_with_retry roots resolve upload retries files =
          ((files.map (fun f =>
              (roots.map (fun r => [DEv.resolveCall r, DEv.uploadCall r f])).flatten)).flatten,
           files.map (fun f => (f, UpOutcome.uploadedOk)))) ∧
    (∀ (roots : List Nat) (resolve : Nat → Nat → SvcRes)
        (upload : Nat → Nat → String → Option PyErr) (retries : Nat) (files : List String),
        (∀ a r, resolve a r = SvcRes.err PyErr.http404) →
        0 < retries →
        upload_files_with_retry roots resolve upload retries files =
          ((files.map (fun _ => roots.map DEv.resolveCall)).flatten,
           files.map (fun f => (f, UpOutcome.uploadedOk)))) := by
  constructor
  · intro roots resolve upload retries files hres hupl hpos
    obtain ⟨m, rfl⟩ : ∃ m, retries = m + 1 := ⟨retries - 1, by omega⟩
    induction files with
    | nil => rfl
    | cons f fs ih =>
      have hall := save_files_allok (resolve 0) (upload 0) (hres 0) (hupl 0) [f] roots
      simp only [upload_files_with_retry]
      rw [retryFileGo_first_success roots resolve upload f m 0 (by rw [hall]), ih, hall]
      simp
  · intro roots resolve upload retries files hres hpos
    obtain ⟨m, rfl⟩ : ∃ m, retries = m + 1 := ⟨retries - 1, by omega⟩
    induction files with
    | nil => rfl
    | cons f fs ih =>
      have hall := save_files_all404 (resolve 0) (upload 0) (hres 0) [f] roots
      simp only [upload_files_with_retry]
      rw [retryFileGo_first_success roots resolve upload f m 0 (by rw [hall]), ih, hall]
      simp

/-- Witness for C4 (amended): one root, two files, everything healthy — the
root's dated folder is resolved before each of the two uploads. -/
theorem C4_resolution_per_attempt_witness :
    upload_files_with_retry [1] (fun _ _ => SvcRes.ok 7) (fun _ _ _ => none) 3 ["a", "b"] =
      ([DEv.resolveCall 1, DEv.uploadCall 1 "a", DEv.resolveCall 1, DEv.uploadCall 1 "b"],
       [("a", UpOutcome.uploadedOk), ("b", UpOutcome.uploadedOk)]) := by
  have h := C4_resolution_per_attempt.1 [1] (fun _ _ => SvcRes.ok 7) (fun _ _ _ => none) 3
    ["a", "b"] (fun _ _ => ⟨7, rfl⟩) (fun _ _ _ => rfl) (by decide)
  simpa using h

/-- C10: upload is at-least-once, not at-most-once.  Whenever an attempt's
`save_files` call ends in a transient error, the retry performs a fresh full
multi-root save from the first configured root, with no record of per-root
successes; concretely, when the first root accepts the file and the second
root fails transiently once, the first root receives the file twice. -/
theorem C10_at_least_once :
    (∀ (roots : List Nat) (resolve : Nat → Nat → SvcRes)
        (upload : Nat → Nat → String → Option PyErr) (f : String) (fuel attempt : Nat),
        (save_files (resolve attempt) (upload attempt) roots [f]).2
            = some PyErr.httpOther →
        retryFileGo roots resolve upload f (fuel + 1) attempt =
          ((save_files (resolve attempt) (upload attempt) roots [f]).1
             ++ (retryFileGo roots resolve upload f fuel (attempt + 1)).1,
           (retryFileGo roots resolve upload f fuel (attempt + 1)).2)) ∧
    countD (retryFileGo [1, 2] (fun _ _ => SvcRes.ok 9)
        (fun a r _ => if a = 0 ∧ r = 2 then some PyErr.httpOther else none) "a" 3 0).1
      (DEv.uploadCall 1 "a") = 2 := by
  constructor
  · intro roots resolve upload f fuel attempt h
    simp only [retryFileGo]
    rw [h]
  · decide

/-- Witness for C10: the duplicate-upload scenario satisfies the general
re-invocation equation at attempt 0. -/
theorem C10_at_least_once_witness :
    retryFileGo [1, 2] (fun _ _ => SvcRes.ok 9)
        (fun a r _ => if a = 0 ∧ r = 2 then some PyErr.httpOther else none) "a" 3 0 =
      ((save_files ((fun _ _ => SvcRes.ok 9) 0)
          ((fun a r _ => if a = 0 ∧ r = 2 then some PyErr.httpOther else none) 0) [1, 2]
          ["a"]).1
         ++ (retryFileGo [1, 2] (fun _ _ => SvcRes.ok 9)
              (fun a r _ => if a = 0 ∧ r = 2 then some PyErr.httpOther else none) "a" 2 1).1,
       (retryFileGo [1, 2] (fun _ _ => SvcRes.ok 9)
          (fun a r _ => if a = 0 ∧ r = 2 then some PyErr.httpOther else none) "a" 2 1).2) :=
  C10_at_least_once.1 [1, 2] (fun _ _ => SvcRes.ok 9)
    (fun a r _ => if a = 0 ∧ r = 2 then some PyErr.httpOther else none) "a" 2 0 (by decide)

/-! ### Theorems for the exporter -/

theorem mem_addKeys (k : String) :
    ∀ (ks acc : List String), k ∈ addKeys acc ks ↔ k ∈ acc ∨ k ∈ ks := by
  intro ks
  induction ks with
  | nil => intro acc; simp [addKeys]
  | cons k0 ks ih =>
    intro acc
    simp only [addKeys]
    by_cases h : k0 ∈ acc
    · rw [if_pos h, ih]
      simp only [List.mem_cons]
      constructor
      · rintro (hk | hk)
        · exact Or.inl hk
        · exact Or.inr (Or.inr hk)
      · rintro (hk | rfl | hk)
        · exact Or.inl hk
        · exact Or.inl h
        · exact Or.inr hk
    · rw [if_neg h, ih]
      simp only [List.mem_append, List.mem_singleton, List.mem_cons]
      tauto

theorem mem_dfColumns (recs : List Rec) (k : String) :
    k ∈ dfColumns recs ↔ ∃ r ∈ recs, k ∈ r.map Prod.fst := by
  suffices h : ∀ acc, (k ∈ recs.foldl (fun acc r => addKeys acc (r.map Prod.fst)) acc ↔
      k ∈ acc ∨ ∃ r ∈ recs, k ∈ r.map Prod.fst) by
    have h2 := h []
    simpa [dfColumns] using h2
  induction recs with
  | nil => intro acc; simp
  | cons r rs ih =>
    intro acc
    simp only [List.foldl_cons]
    rw [ih, mem_addKeys]
    simp only [List.mem_cons, exists_eq_or_imp]
    tauto

/-- C9: the exporter produces no artifact for an empty record list and no
artifact on an I/O or encoding failure (the category is skipped, nothing
propagates); for a non-empty list with a successful write, the artifact is
named after the category, its rows are the input records in input order,
and its column set is exactly the union of the field names observed across
the input records. -/
theorem C9_exporter (name : String) (recs : List Rec) (ioOk : Bool) :
    (recs = [] → save_to_excel name recs ioOk = none) ∧
    (recs ≠ [] → ioOk = false → save_to_excel name recs ioOk = none) ∧
    (recs ≠ [] → ioOk = true →
      save_to_excel name recs ioOk = some ⟨name ++ ".xlsx", dfColumns recs, recs⟩ ∧
      ∀ k, k ∈ dfColumns recs ↔ ∃ r ∈ recs, k ∈ r.map Prod.fst) := by
  refine ⟨?_, ?_, ?_⟩
  · intro h
    subst h
    rfl
  · intro h hio
    subst hio
    simp [save_to_excel, ite_self]
  · intro h hio
    subst hio
    have hne : recs.isEmpty = false := by
      cases recs with
      | nil => exact absurd rfl h
      | cons a as => rfl
    exact ⟨by simp [save_to_excel, hne], fun k => mem_dfColumns recs k⟩

/-- Witness for C9: two records with distinct single fields export to an
artifact named after the category with both columns, rows in input order. -/
theorem C9_exporter_witness :
    save_to_excel "cat" [[("a", "1")], [("b", "2")]] true =
      some ⟨"cat.xlsx", ["a", "b"], [[("a", "1")], [("b", "2")]]⟩ :=
  ((C9_exporter "cat" [[("a", "1")], [("b", "2")]] true).2.2 (by decide) rfl).1

/-! ### Theorems for the orchestrator -/

theorem mem_chunkEvents_of_pending (O : OrcOracles) (chunk : List Category) (f : String)
    (hf : f ∈ pendingOf O chunk) :
    delEv O f ∈ chunkEvents O chunk := by
  have hne : (pendingOf O chunk).isEmpty = false := by
    cases hp : pendingOf O chunk with
    | nil => rw [hp] at hf; simp at hf
    | cons a as => rfl
  have hch : chunkEvents O chunk =
      chunk.map (categoryEv O) ++
        ((pendingOf O chunk).map
            (fun f => Ev.uploadDone f (uploadFileRetry (O.uploadB f) 3).1)
          ++ (pendingOf O chunk).map (delEv O)) := by
    simp [chunkEvents, hne]
  rw [hch]
  exact List.mem_append_right _ (List.mem_append_right _ (List.mem_map_of_mem _ hf))

theorem mem_runChunks_of_mem (O : OrcOracles) (e : Ev) :
    ∀ (chunks : List (List Category)) (i : Nat) (ch : List Category),
      ch ∈ chunks → e ∈ chunkEvents O ch → e ∈ runChunks O i chunks := by
  intro chunks
  induction chunks with
  | nil => intro i ch h _; simp at h
  | cons c cs ih =>
    intro i ch hch he
    simp only [runChunks]
    rcases List.mem_cons.mp hch with rfl | hch
    · exact List.mem_append_left _ (List.mem_cons_of_mem _ (List.mem_append_left _ he))
    · exact List.mem_append_right _ (ih (i + 1) ch hch he)

theorem chunkDone_mem_runChunks (O : OrcOracles) :
    ∀ (chunks : List (List Category)) (i j : Nat), j < chunks.length →
      Ev.chunkDone (i + j) ∈ runChunks O i chunks := by
  intro chunks
  induction chunks with
  | nil => intro i j h; simp at h
  | cons c cs ih =>
    intro i j h
    cases j with
    | zero =>
      simp only [runChunks, Nat.add_zero]
      apply List.mem_append_left
      apply List.mem_cons_of_mem
      exact List.mem_append_right _ (List.mem_singleton.mpr rfl)
    | succ m =>
      have h2 := ih (i + 1) m (by simp only [List.length_cons] at h; omega)
      have h3 : i + (m + 1) = (i + 1) + m := by omega
      rw [h3]
      simp only [runChunks]
      exact List.mem_append_right _ h2

/-- C7: in any authenticated run, for every chunk of the partition and every
artifact file pending in that chunk, the deletion of that local file is
attempted after the chunk's upload batch — whatever the upload outcomes and
whether or not the deletion itself succeeds — and every chunk of the run
still completes (no deletion or upload failure aborts the run). -/
theorem C7_unconditional_cleanup (O : OrcOracles) (data : List Category)
    (hauth : O.authOk = true) :
    (∀ chunk ∈ pyChunks 2 data, ∀ f ∈ pendingOf O chunk,
        delEv O f ∈ scrape_all_automotives O data) ∧
    (∀ i < (pyChunks 2 data).length,
        Ev.chunkDone (i + 1) ∈ scrape_all_automotives O data) := by
  constructor
  · intro chunk hch f hf
    simp only [scrape_all_automotives, hauth, if_true]
    exact mem_runChunks_of_mem O _ (pyChunks 2 data) 1 chunk hch
      (mem_chunkEvents_of_pending O chunk f hf)
  · intro i hi
    simp only [scrape_all_automotives, hauth, if_true]
    have h2 := chunkDone_mem_runChunks O (pyChunks 2 data) 1 i hi
    rwa [Nat.add_comm] at h2

/-- Witness for C7: a run whose only category produces an artifact and whose
deletion oracle always fails still records the deletion attempt. -/
theorem C7_unconditional_cleanup_witness :
    Ev.deleteFailed "cat1.xlsx" ∈ scrape_all_automotives oWit dataWit := by
  have h := (C7_unconditional_cleanup oWit dataWit rfl).1 [("cat1", [("u", 1)])]
    (by decide) "cat1.xlsx" (by decide)
  simpa [delEv, oWit] using h

/-- C8: a Drive setup/authentication failure aborts the run after logging
with zero chunks processed (the trace is the single failure event);
conversely, for every behaviour of the page/category/export/upload/delete
oracles — any harvest exceptions, export failures, upload outcomes and
deletion failures — every chunk of an authenticated run completes: no such
failure is ever raised to abort the orchestrator. -/
theorem C8_only_auth_fatal (O : OrcOracles) (data : List Category) :
    (O.authOk = false → scrape_all_automotives O data = [Ev.authFailed]) ∧
    (O.authOk = true → ∀ i < (pyChunks 2 data).length,
        Ev.chunkDone (i + 1) ∈ scrape_all_automotives O data) := by
  constructor
  · intro h
    simp [scrape_all_automotives, h]
  · intro h i hi
    simp only [scrape_all_automotives, h, if_true]
    have h2 := chunkDone_mem_runChunks O (pyChunks 2 data) 1 i hi
    rwa [Nat.add_comm] at h2

/-- Witness for C8: the failed-authentication environment yields exactly the
abort trace. -/
theorem C8_only_auth_fatal_witness :
    scrape_all_automotives oBad dataWit = [Ev.authFailed] :=
  (C8_only_auth_fatal oBad dataWit).1 rfl
